import Mathlib

/-!
Verification development for the `miden-client` Store component
(`src/store/mod.rs`): a SQLite-backed persistence layer for account
records. The Store, its four insert operations and `get_accounts` are
embedded as pure Lean functions over an explicit database state; the
external crates at its boundary (rusqlite's i64-only integer column with
fallible u64 conversions, serde_json's encoder and the hash type's
`TryFrom<String>` decoder) are modelled explicitly, and the schema
constraints plus the migration runner — whose module is referenced by
`mod.rs` but not part of the sources — are modelled from the spec.
-/

namespace Miden

/-! ## Bit-pattern casts at the sqlite boundary

Rust's `as` casts between `u64` and `i64` preserve the 64-bit two's
complement bit pattern. `u64ToI64` models `id as i64` (write path of
`insert_account`); `i64ToU64` models `id as u64` (read path of
`get_accounts`). -/

/-- Models the Rust cast `u64 as i64`: values below 2^63 are unchanged,
values with the high bit set wrap to negatives (two's complement). -/
def u64ToI64 (n : Nat) : Int :=
  if n < 2 ^ 63 then (n : Int) else (n : Int) - 2 ^ 64

/-- Models the Rust cast `i64 as u64`: the value modulo 2^64, as unsigned. -/
def i64ToU64 (i : Int) : Nat :=
  (i % 2 ^ 64).toNat

/-- The largest value an i64 column can hold, `i64::MAX`. -/
def i64MaxNat : Nat := 2 ^ 63 - 1

/-! ## Error type

`errors::StoreError` as used by `store/mod.rs`: the four constructors the
module applies (`ConnectionError`, `QueryError`,
`InputSerializationError`, `DataDeserializationError`), each wrapping the
underlying error, modelled as its message string. -/

/-- The Store's error enum, one constructor per error kind used in
`store/mod.rs`. -/
inductive StoreError where
  | connectionError : String → StoreError
  | queryError : String → StoreError
  | inputSerializationError : String → StoreError
  | dataDeserializationError : String → StoreError
deriving DecidableEq, Repr

/-! ## External codec

The roots stored by the Store are values of the external `Digest` hash
type. On write `serde_json::to_string` encodes a root to TEXT; on read
`String::try_into` (`TryFrom<String> for Digest`) decodes it back. Both
live in external crates, so they are modelled as an abstract codec over
an abstract root type `α`; the spec's canonical-encoding invariant (the
same value deserializes to exactly what was inserted) appears as a
round-trip hypothesis on the codec where a theorem needs it. -/

/-- Abstract encode/decode pair for the external root type: `enc` models
`serde_json::to_string` (fallible, an encoder failure becomes an
`InputSerializationError`), `dec` models `TryFrom<String>` (fallible, a
decode failure becomes a `DataDeserializationError`). -/
structure Codec (α : Type) where
  enc : α → Except String String
  dec : String → Except String α

/-- The codec round-trip law of the spec: whatever `enc` wrote, `dec`
recovers the original value from it. -/
def Codec.RoundTrip {α : Type} (c : Codec α) : Prop :=
  ∀ (x : α) (s : String), c.enc x = .ok s → c.dec s = .ok x

/-! ## Database state

The four tables of the schema (spec §6). Column values are stored as
written: INTEGER columns as `Int` (sqlite's i64), TEXT columns as
`String`, BOOLEAN as `Bool`. -/

/-- One row of `accounts(id, code_root, storage_root, vault_root, nonce,
committed)`. -/
structure AccountRow where
  id : Int
  code_root : String
  storage_root : String
  vault_root : String
  nonce : Int
  committed : Bool
deriving DecidableEq, Repr

/-- One row of `account_code(root, procedures, module)`. -/
structure CodeRow where
  root : String
  procedures : String
  module : String
deriving DecidableEq, Repr

/-- One row of `account_storage(root, slots)`. -/
structure StorageRow where
  root : String
  slots : String
deriving DecidableEq, Repr

/-- One row of `account_vault(root, assets)`. -/
structure VaultRow where
  root : String
  assets : String
deriving DecidableEq, Repr

/-- The database state: the four tables, each a list of rows in storage
order. -/
structure DB where
  accounts : List AccountRow
  account_code : List CodeRow
  account_storage : List StorageRow
  account_vault : List VaultRow
deriving DecidableEq, Repr

/-- The empty database (all four tables empty), as produced by a fresh
fully-migrated file. -/
def DB.empty : DB := ⟨[], [], [], []⟩

/-! ## Input entities

The in-memory value objects consumed by the insert operations, reduced
to the accessors `store/mod.rs` actually calls. `α` is the external root
(`Digest`) type; `π` the payload types serialized with serde_json
(procedure list, slot map, asset list); `μ` the module AST type, which
is never serialized. -/

/-- An `Account` as seen by `insert_account`: `id` is the `u64` obtained
from `account.id().into()`, `nonce` the `u64` from
`account.nonce().inner()`. -/
structure Account (α : Type) where
  id : Nat
  nonce : Nat
  vaultRoot : α
  storageRoot : α
  codeRoot : α
  isOnChain : Bool

/-- An `AccountCode` as seen by `insert_account_code`: root, procedure
list and the (never serialized) module AST. -/
structure AccountCode (α π μ : Type) where
  root : α
  procedures : π
  module : μ

/-- An `AccountStorage` as seen by `insert_account_storage`: root and the
slot map collected from `slots().leaves()`. -/
structure AccountStorage (α π : Type) where
  root : α
  slots : π

/-- An `AccountVault` as seen by `insert_account_vault`: commitment and
the asset list collected from `assets()`. -/
structure AccountVault (α π : Type) where
  commitment : α
  assets : π

/-- The `AccountStub` reconstructed by `get_accounts`:
`AccountStub::new(id, nonce, vault_root, storage_root, code_root)`. -/
structure AccountStub (α : Type) where
  id : Nat
  nonce : Nat
  vaultRoot : α
  storageRoot : α
  codeRoot : α
deriving Repr

/-! ## Write operations -/

/-- Embeds `Store::insert_account`. Following the source order: encode
`code_root`, `storage_root`, `vault_root` with serde_json (first failure
becomes `InputSerializationError`), then execute the INSERT. Binding the
parameters casts `id` with `as i64`; the `nonce` is passed as a raw
`u64`, and rusqlite's `ToSql for u64` converts it through `i64::try_from`,
which fails for values above `i64::MAX` — that binding failure surfaces
as a `QueryError` from `execute`. A duplicate `id` violates the
`accounts` PRIMARY KEY (schema modelled from the spec, the migrations
module is not among the sources) and is also a `QueryError`. On success
exactly the one new row is appended to `accounts`. -/
def insert_account {α : Type} (c : Codec α) (db : DB) (a : Account α) :
    Except StoreError DB :=
  match c.enc a.codeRoot with
  | .error e => .error (.inputSerializationError e)
  | .ok code_root =>
  match c.enc a.storageRoot with
  | .error e => .error (.inputSerializationError e)
  | .ok storage_root =>
  match c.enc a.vaultRoot with
  | .error e => .error (.inputSerializationError e)
  | .ok vault_root =>
  if a.nonce ≤ i64MaxNat then
    if ∃ r ∈ db.accounts, r.id = u64ToI64 a.id then
      .error (.queryError "UNIQUE constraint failed: accounts.id")
    else
      .ok { db with
            accounts := db.accounts ++
              [{ id := u64ToI64 a.id, code_root := code_root,
                 storage_root := storage_root, vault_root := vault_root,
                 nonce := (a.nonce : Int), committed := a.isOnChain }] }
  else
    .error (.queryError "ToSqlConversionFailure: u64 nonce out of i64 range")

/-- Embeds `Store::insert_account_code`. Encodes the root and the
procedure list with serde_json; the module is not serialized
(`ModuleAst does not derive Serialize`) — the empty string is stored in
its place unconditionally. A duplicate root violates the `account_code`
PRIMARY KEY (schema modelled from the spec). -/
def insert_account_code {α π μ : Type} (c : Codec α)
    (encP : π → Except String String) (db : DB) (ac : AccountCode α π μ) :
    Except StoreError DB :=
  match c.enc ac.root with
  | .error e => .error (.inputSerializationError e)
  | .ok code_root =>
  match encP ac.procedures with
  | .error e => .error (.inputSerializationError e)
  | .ok code =>
  if ∃ r ∈ db.account_code, r.root = code_root then
    .error (.queryError "UNIQUE constraint failed: account_code.root")
  else
    .ok { db with
          account_code := db.account_code ++
            [{ root := code_root, procedures := code, module := "" }] }

/-- Embeds `Store::insert_account_storage`. Encodes the root and the
collected slot map with serde_json. A duplicate root violates the
`account_storage` PRIMARY KEY (schema modelled from the spec). -/
def insert_account_storage {α π : Type} (c : Codec α)
    (encP : π → Except String String) (db : DB) (st : AccountStorage α π) :
    Except StoreError DB :=
  match c.enc st.root with
  | .error e => .error (.inputSerializationError e)
  | .ok storage_root =>
  match encP st.slots with
  | .error e => .error (.inputSerializationError e)
  | .ok storage_slots =>
  if ∃ r ∈ db.account_storage, r.root = storage_root then
    .error (.queryError "UNIQUE constraint failed: account_storage.root")
  else
    .ok { db with
          account_storage := db.account_storage ++
            [{ root := storage_root, slots := storage_slots }] }

/-- Embeds `Store::insert_account_vault`. Encodes the commitment and the
collected asset list with serde_json. A duplicate root violates the
`account_vault` PRIMARY KEY (schema modelled from the spec). -/
def insert_account_vault {α π : Type} (c : Codec α)
    (encP : π → Except String String) (db : DB) (av : AccountVault α π) :
    Except StoreError DB :=
  match c.enc av.commitment with
  | .error e => .error (.inputSerializationError e)
  | .ok vault_root =>
  match encP av.assets with
  | .error e => .error (.inputSerializationError e)
  | .ok assets =>
  if ∃ r ∈ db.account_vault, r.root = vault_root then
    .error (.queryError "UNIQUE constraint failed: account_vault.root")
  else
    .ok { db with
          account_vault := db.account_vault ++
            [{ root := vault_root, assets := assets }] }

/-! ## Read operation -/

/-- Outcome of decoding one row of `accounts`, or of the whole scan: a
value, a `StoreError` returned through `Result`, or a Rust panic (the
`expect` on `id.try_into()`). -/
inductive ReadResult (β : Type) where
  | ok : β → ReadResult β
  | err : StoreError → ReadResult β
  | panicked : String → ReadResult β
deriving Repr

/-- Embeds the body of the `while` loop of `Store::get_accounts` for one
row, in source order: `row.get(0)` reads the id as i64 and `id as u64`
casts it back; `row.get(1)` reads the nonce with rusqlite's
`FromSql for u64`, which fails on a negative i64 (`QueryError`); the
three root TEXT columns always read as strings. Then the arguments of
`AccountStub::new` are evaluated left to right: `id.try_into().expect(…)`
panics when the u64 is not a valid `AccountId` (`validId` models the
external `AccountId::try_from`), and each root is decoded with
`try_into`, a failure becoming a `DataDeserializationError`. -/
def readAccountRow {α : Type} (c : Codec α) (validId : Nat → Bool)
    (r : AccountRow) : ReadResult (AccountStub α) :=
  let idU := i64ToU64 r.id
  if r.nonce < 0 then
    .err (.queryError "FromSql: i64 out of u64 range")
  else if ¬ validId idU then
    .panicked "Conversion from stored AccountID should not panic"
  else
    match c.dec r.vault_root with
    | .error e => .err (.dataDeserializationError e)
    | .ok v =>
    match c.dec r.storage_root with
    | .error e => .err (.dataDeserializationError e)
    | .ok s =>
    match c.dec r.code_root with
    | .error e => .err (.dataDeserializationError e)
    | .ok k => .ok { id := idU, nonce := r.nonce.toNat, vaultRoot := v,
                     storageRoot := s, codeRoot := k }

/-- The scan of `get_accounts`: decode the rows in order, accumulating
stubs; the first row failure aborts the whole call with that failure
(the `?` inside the loop returns from the function). -/
def readAccountRows {α : Type} (c : Codec α) (validId : Nat → Bool) :
    List AccountRow → ReadResult (List (AccountStub α))
  | [] => .ok []
  | r :: rs =>
    match readAccountRow c validId r with
    | .err e => .err e
    | .panicked m => .panicked m
    | .ok stub =>
      match readAccountRows c validId rs with
      | .ok l => .ok (stub :: l)
      | .err e => .err e
      | .panicked m => .panicked m

/-- Embeds `Store::get_accounts`: a whole-table scan of `accounts`
returning the decoded stubs, or the first error, or a panic. -/
def get_accounts {α : Type} (c : Codec α) (validId : Nat → Bool) (db : DB) :
    ReadResult (List (AccountStub α)) :=
  readAccountRows c validId db.accounts

/-! ## Migration runner and `Store::new`

`store/mod.rs` calls `migrations::update_to_latest(&mut db)?`, but the
`migrations` module is not among the sources; the runner is modelled
from the spec (§4.1): an ordered sequence of schema-evolution steps, a
tracked version recording how many have been applied, application of
exactly the not-yet-applied steps in order, and abort on the first
failing step, surfaced as a connection/schema error. -/

/-- Modelled from the spec: the connection's schema state as the
migration runner sees it — the current schema contents (abstract type
`σ`), the tracked schema version (how many of the ordered migrations
have been applied), and, for stating the never-twice contract, the log
of applied migration indices in application order. -/
structure MigDB (σ : Type) where
  schema : σ
  version : Nat
  log : List Nat
deriving Repr

/-- Modelled from the spec: apply the pending migration steps in order,
`i` being the index of the head step; each success bumps the tracked
version to the step's index plus one and records the index in the log;
the first failing step aborts the whole run. -/
def applyPending {σ : Type} : List (σ → Except String σ) → Nat → MigDB σ →
    Except String (MigDB σ)
  | [], _, db => .ok db
  | m :: rest, i, db =>
    match m db.schema with
    | .error e => .error e
    | .ok s =>
      applyPending rest (i + 1)
        { schema := s, version := i + 1, log := db.log ++ [i] }

/-- Modelled from the spec: `migrations::update_to_latest` — run the
migrations whose index is at least the tracked version, in order; a
failure surfaces as a `ConnectionError`-class `StoreError`. -/
def update_to_latest {σ : Type} (steps : List (σ → Except String σ))
    (db : MigDB σ) : Except StoreError (MigDB σ) :=
  match applyPending (steps.drop db.version) db.version db with
  | .error e => .error (.connectionError e)
  | .ok db1 => .ok db1

/-- Embeds `Store::new`: `Connection::open(config.path)` (external; its
outcome is the `openResult` argument), whose failure maps to
`ConnectionError`, then `migrations::update_to_latest(&mut db)?`; only
when both succeed is a handle returned. -/
def Store.new {σ : Type} (steps : List (σ → Except String σ))
    (openResult : Except String (MigDB σ)) : Except StoreError (MigDB σ) :=
  match openResult with
  | .error e => .error (.connectionError e)
  | .ok db =>
    match update_to_latest steps db with
    | .error e => .error e
    | .ok db1 => .ok db1

/-! ## Helper lemmas on the migration runner -/

/-- After a successful `applyPending` run the log has grown by exactly
the indices of the pending steps, in order, and the tracked version is
the index one past the last applied step (unchanged when nothing was
pending). -/
theorem applyPending_ok_spec {σ : Type}
    (ms : List (σ → Except String σ)) (i : Nat) (db db1 : MigDB σ)
    (h : applyPending ms i db = .ok db1) :
    db1.log = db.log ++ List.range' i ms.length ∧
      db1.version = (if ms.length = 0 then db.version else i + ms.length) := by
  induction ms generalizing i db with
  | nil =>
    simp only [applyPending] at h
    cases h
    simp
  | cons m rest ih =>
    simp only [applyPending] at h
    cases hm : m db.schema with
    | error e => simp [hm] at h
    | ok s =>
      simp only [hm] at h
      obtain ⟨hlog, hver⟩ := ih (i + 1)
        { schema := s, version := i + 1, log := db.log ++ [i] } h
      refine ⟨?_, ?_⟩
      · rw [hlog, List.append_assoc]
        rfl
      · rw [hver]
        simp only [List.length_cons, Nat.succ_ne_zero, if_false]
        split <;> omega

/-! ## Helper lemmas on the store operations -/

/-- The write-then-read cast chain on ids is the identity on every
64-bit value, high bit set or not. -/
theorem u64_cast_roundtrip (n : Nat) (h : n < 2 ^ 64) :
    i64ToU64 (u64ToI64 n) = n := by
  simp only [u64ToI64, i64ToU64]
  split <;> omega

/-- Inversion of a successful `insert_account`: all three roots encoded,
the nonce fit into an i64, the id was fresh, and the new state is the
old one with exactly the one new row appended to `accounts`. -/
theorem insert_account_ok_inv {α : Type} (c : Codec α) (db : DB)
    (a : Account α) (db1 : DB) (h : insert_account c db a = .ok db1) :
    ∃ cr sr vr, c.enc a.codeRoot = .ok cr ∧ c.enc a.storageRoot = .ok sr ∧
      c.enc a.vaultRoot = .ok vr ∧ a.nonce ≤ i64MaxNat ∧
      (¬ ∃ r ∈ db.accounts, r.id = u64ToI64 a.id) ∧
      db1 = { db with accounts := db.accounts ++
        [{ id := u64ToI64 a.id, code_root := cr, storage_root := sr,
           vault_root := vr, nonce := (a.nonce : Int),
           committed := a.isOnChain }] } := by
  unfold insert_account at h
  cases hc : c.enc a.codeRoot with
  | error e => simp [hc] at h
  | ok cr =>
  cases hs : c.enc a.storageRoot with
  | error e => simp [hc, hs] at h
  | ok sr =>
  cases hv : c.enc a.vaultRoot with
  | error e => simp [hc, hs, hv] at h
  | ok vr =>
  simp only [hc, hs, hv] at h
  split at h
  · split at h
    · exact absurd h (by simp)
    · cases h
      exact ⟨cr, sr, vr, rfl, rfl, rfl, by assumption, by assumption, rfl⟩
  · exact absurd h (by simp)

/-- Reading back the row `insert_account` wrote recovers every field of
the original account, given the codec round-trip law and a valid id. -/
theorem readAccountRow_written {α : Type} (c : Codec α)
    (validId : Nat → Bool) (a : Account α) (cr sr vr : String)
    (hrt : c.RoundTrip) (h64 : a.id < 2 ^ 64) (hid : validId a.id = true)
    (hc : c.enc a.codeRoot = .ok cr) (hs : c.enc a.storageRoot = .ok sr)
    (hv : c.enc a.vaultRoot = .ok vr) :
    readAccountRow c validId
      { id := u64ToI64 a.id, code_root := cr, storage_root := sr,
        vault_root := vr, nonce := (a.nonce : Int),
        committed := a.isOnChain } =
      .ok { id := a.id, nonce := a.nonce, vaultRoot := a.vaultRoot,
            storageRoot := a.storageRoot, codeRoot := a.codeRoot } := by
  unfold readAccountRow
  have hnn : ¬ ((a.nonce : Int) < 0) := by omega
  rw [if_neg hnn]
  rw [u64_cast_roundtrip a.id h64, hid]
  simp [hrt _ _ hc, hrt _ _ hs, hrt _ _ hv]

/-- A row with a nonnegative nonce and a valid id either decodes fully
or fails with a `DataDeserializationError` — never a `QueryError` and
never a panic. -/
theorem readAccountRow_ok_or_dataDeser {α : Type} (c : Codec α)
    (validId : Nat → Bool) (r : AccountRow) (h0 : 0 ≤ r.nonce)
    (hv : validId (i64ToU64 r.id) = true) :
    (∃ stub, readAccountRow c validId r = .ok stub) ∨
      (∃ e, readAccountRow c validId r = .err (.dataDeserializationError e)) := by
  unfold readAccountRow
  rw [if_neg (by omega), hv]
  simp only [not_true_eq_false, if_false]
  cases c.dec r.vault_root with
  | error e => exact Or.inr ⟨e, rfl⟩
  | ok v =>
  cases c.dec r.storage_root with
  | error e => exact Or.inr ⟨e, rfl⟩
  | ok s =>
  cases c.dec r.code_root with
  | error e => exact Or.inr ⟨e, rfl⟩
  | ok k => exact Or.inl ⟨_, rfl⟩

/-- A fully decoded row decoded all three of its root columns. -/
theorem readAccountRow_ok_decodes {α : Type} (c : Codec α)
    (validId : Nat → Bool) (r : AccountRow) (stub : AccountStub α)
    (h : readAccountRow c validId r = .ok stub) :
    (c.dec r.vault_root).isOk = true ∧ (c.dec r.storage_root).isOk = true ∧
      (c.dec r.code_root).isOk = true := by
  unfold readAccountRow at h
  by_cases h0 : r.nonce < 0
  · rw [if_pos h0] at h
    exact absurd h (by simp)
  · rw [if_neg h0] at h
    by_cases hvid : validId (i64ToU64 r.id) = true
    · rw [if_neg (not_not_intro hvid)] at h
      cases hv : c.dec r.vault_root <;> simp only [hv] at h
      · exact absurd h (by simp)
      · cases hs : c.dec r.storage_root <;> simp only [hs] at h
        · exact absurd h (by simp)
        · cases hk : c.dec r.code_root <;> simp only [hk] at h
          · exact absurd h (by simp)
          · simp [Except.isOk, Except.toBool, hv, hs, hk]
    · rw [if_pos hvid] at h
      exact absurd h (by simp)

/-! ## Concrete instances used by the witnesses -/

/-- A root type instance for concrete evaluation: roots are their own
encoding, so the codec round-trip law holds by reflexivity. -/
def idCodec : Codec String := { enc := fun s => .ok s, dec := fun s => .ok s }

/-- A decoder that rejects exactly the text "BAD", standing for a
corrupted stored root. -/
def strictCodec : Codec String :=
  { enc := fun s => .ok s,
    dec := fun s => if s = "BAD" then .error "malformed root" else .ok s }

/-- An `AccountId` validity predicate accepting every 64-bit value. -/
def allValid : Nat → Bool := fun _ => true

/-- The identity codec satisfies the round-trip law. -/
theorem idCodec_roundTrip : idCodec.RoundTrip := by
  intro x s h
  cases h
  rfl

/-- The strict codec satisfies the round-trip law on everything it
encodes other than "BAD". -/
theorem strictCodec_dec_ok (s : String) (h : ¬ s = "BAD") :
    strictCodec.dec s = .ok s := by
  simp [strictCodec, h]

/-- A concrete account whose id has the high bit set. -/
def acct1 : Account String :=
  { id := 2 ^ 63 + 5, nonce := 7, vaultRoot := "v", storageRoot := "s",
    codeRoot := "c", isOnChain := true }

/-- The accounts row that `insert_account` writes for `acct1`. -/
def acct1Row : AccountRow :=
  { id := u64ToI64 (2 ^ 63 + 5), code_root := "c", storage_root := "s",
    vault_root := "v", nonce := 7, committed := true }

/-- The database state after inserting `acct1` into the empty database. -/
def db1 : DB := { DB.empty with accounts := [acct1Row] }

/-- An account whose nonce exceeds `i64::MAX` (a value the protocol's
field element type can produce). -/
def acctBigNonce : Account String :=
  { id := 1, nonce := 2 ^ 63, vaultRoot := "v", storageRoot := "s",
    codeRoot := "c", isOnChain := false }

/-- Inserting into a table with no prior row for the id and then scanning
yields exactly the one decoded stub, equal to the inserted account in
every field. Shared backbone of the round-trip claims. -/
theorem insert_get_empty {α : Type} (c : Codec α) (validId : Nat → Bool)
    (a : Account α) (db db1 : DB) (hrt : c.RoundTrip) (h64 : a.id < 2 ^ 64)
    (hid : validId a.id = true) (hdb : db.accounts = [])
    (hins : insert_account c db a = .ok db1) :
    get_accounts c validId db1 =
      .ok [{ id := a.id, nonce := a.nonce, vaultRoot := a.vaultRoot,
             storageRoot := a.storageRoot, codeRoot := a.codeRoot }] := by
  obtain ⟨cr, sr, vr, hc, hs, hv, hn, hfresh, hdb1⟩ :=
    insert_account_ok_inv c db a db1 hins
  subst hdb1
  unfold get_accounts
  simp only [hdb, List.nil_append]
  unfold readAccountRows
  rw [readAccountRow_written c validId a cr sr vr hrt h64 hid hc hs hv]
  rfl

/-! ## Claim theorems -/

/-- C1: for every valid account value, `insert_account` followed by
`get_accounts` reading the row it wrote reconstructs an account summary
equal to the original in every field — id, nonce, and the vault, storage
and code roots each decode back to the inserted value (under the spec's
canonical-codec round-trip law for the external root encoding). -/
theorem C1_insert_get_roundtrip {α : Type} (c : Codec α)
    (validId : Nat → Bool) (a : Account α) (db db1 : DB)
    (hrt : c.RoundTrip) (h64 : a.id < 2 ^ 64) (hid : validId a.id = true)
    (hdb : db.accounts = []) (hins : insert_account c db a = .ok db1) :
    get_accounts c validId db1 =
      .ok [{ id := a.id, nonce := a.nonce, vaultRoot := a.vaultRoot,
             storageRoot := a.storageRoot, codeRoot := a.codeRoot }] :=
  insert_get_empty c validId a db db1 hrt h64 hid hdb hins

/-- Witness for C1 at a concrete account whose id has the high bit set. -/
theorem C1_insert_get_roundtrip_witness :
    get_accounts idCodec allValid db1 =
      .ok [{ id := 2 ^ 63 + 5, nonce := 7, vaultRoot := "v",
             storageRoot := "s", codeRoot := "c" }] :=
  C1_insert_get_roundtrip idCodec allValid acct1 DB.empty db1
    idCodec_roundTrip (by decide) rfl rfl (by rfl)

/-- C2: every 64-bit account identifier — in particular every value with
the high bit set — survives the store's signed/unsigned cast chain
exactly: the write cast composed with the read cast is the identity, and
inserting then scanning returns a stub carrying exactly the original id,
with no truncation, sign confusion or panic on the read path. -/
theorem C2_id_bit_width {α : Type} (c : Codec α) (validId : Nat → Bool)
    (a : Account α) (db db1 : DB) (n : Nat) (hrt : c.RoundTrip)
    (hn : a.id = n) (h64 : n < 2 ^ 64) (hid : validId n = true)
    (hdb : db.accounts = []) (hins : insert_account c db a = .ok db1) :
    i64ToU64 (u64ToI64 n) = n ∧
      ∃ stub, get_accounts c validId db1 = .ok [stub] ∧ stub.id = n := by
  subst hn
  refine ⟨u64_cast_roundtrip _ h64, ?_⟩
  exact ⟨_, insert_get_empty c validId a db db1 hrt h64 hid hdb hins, rfl⟩

/-- Witness for C2 at the high-bit id 2^63 + 5. -/
theorem C2_id_bit_width_witness :
    i64ToU64 (u64ToI64 (2 ^ 63 + 5)) = 2 ^ 63 + 5 ∧
      ∃ stub, get_accounts idCodec allValid db1 = .ok [stub] ∧
        stub.id = 2 ^ 63 + 5 :=
  C2_id_bit_width idCodec allValid acct1 DB.empty db1 (2 ^ 63 + 5)
    idCodec_roundTrip rfl (by decide) rfl rfl (by rfl)

/-- C5: the claim demands that every u64 nonce — including values above
`i64::MAX` — round-trips exactly through the i64 column. The code does
not apply the bit-preserving conversion it applies to ids (and that its
own comment calls necessary): the nonce is bound as a raw u64, rusqlite
converts it via `i64::try_from`, and for 2^63 the insert fails with a
`QueryError` instead of storing the value, so no round-trip happens. -/
theorem C5_nonce_above_i64_max_fails :
    insert_account idCodec DB.empty acctBigNonce =
      .error (.queryError
        "ToSqlConversionFailure: u64 nonce out of i64 range") := by
  rfl

/-- C6: a database with zero account rows makes `get_accounts` succeed
with the empty sequence — an empty table is not an error. -/
theorem C6_empty_table_ok {α : Type} (c : Codec α) (validId : Nat → Bool)
    (db : DB) (h : db.accounts = []) : get_accounts c validId db = .ok [] := by
  unfold get_accounts
  rw [h]
  rfl

/-- Witness for C6 on the empty database. -/
theorem C6_empty_table_ok_witness :
    get_accounts idCodec allValid DB.empty = .ok [] :=
  C6_empty_table_ok idCodec allValid DB.empty rfl

/-- A stored account row one of whose three root TEXT columns cannot be
decoded back into the hash type. -/
def hasUndecodableRoot {α : Type} (c : Codec α) (r : AccountRow) : Prop :=
  (c.dec r.vault_root).isOk = false ∨ (c.dec r.storage_root).isOk = false ∨
    (c.dec r.code_root).isOk = false

instance {α : Type} (c : Codec α) (r : AccountRow) :
    Decidable (hasUndecodableRoot c r) := by
  unfold hasUndecodableRoot
  infer_instance

/-- Scanning a list of otherwise readable rows that contains a row with
an undecodable root fails with a `DataDeserializationError`. -/
theorem readAccountRows_bad {α : Type} (c : Codec α) (validId : Nat → Bool)
    (rows : List AccountRow)
    (hrows : ∀ r ∈ rows, 0 ≤ r.nonce ∧ validId (i64ToU64 r.id) = true)
    (hbad : ∃ r ∈ rows, hasUndecodableRoot c r) :
    ∃ e, readAccountRows c validId rows =
      .err (.dataDeserializationError e) := by
  induction rows with
  | nil => simp at hbad
  | cons r rs ih =>
    obtain ⟨h0, hvr⟩ := hrows r (List.mem_cons_self r rs)
    rcases readAccountRow_ok_or_dataDeser c validId r h0 hvr with
      ⟨stub, hok⟩ | ⟨e, herr⟩
    · have hbad1 : ∃ r1 ∈ rs, hasUndecodableRoot c r1 := by
        rcases hbad with ⟨r1, hr1, hbadr⟩
        rcases List.mem_cons.mp hr1 with heq | hmem
        · subst heq
          obtain ⟨b1, b2, b3⟩ := readAccountRow_ok_decodes c validId r1 stub hok
          rcases hbadr with hb | hb | hb <;> simp_all [hasUndecodableRoot]
        · exact ⟨r1, hmem, hbadr⟩
      obtain ⟨e, he⟩ := ih (fun r1 hm => hrows r1 (List.mem_cons_of_mem _ hm)) hbad1
      refine ⟨e, ?_⟩
      unfold readAccountRows
      rw [hok, he]
    · refine ⟨e, ?_⟩
      unfold readAccountRows
      rw [herr]

/-- C3: if the accounts table contains a row whose vault, storage or code
root text cannot be decoded into the hash type (the other rows being
readable), `get_accounts` fails with a data-deserialization error — it
returns no rows rather than skipping or defaulting the malformed one. -/
theorem C3_malformed_row_fails_read {α : Type} (c : Codec α)
    (validId : Nat → Bool) (db : DB)
    (hrows : ∀ r ∈ db.accounts, 0 ≤ r.nonce ∧ validId (i64ToU64 r.id) = true)
    (hbad : ∃ r ∈ db.accounts, hasUndecodableRoot c r) :
    ∃ e, get_accounts c validId db = .err (.dataDeserializationError e) :=
  readAccountRows_bad c validId db.accounts hrows hbad

/-- A row whose vault_root text is corrupted to "BAD". -/
def badRow : AccountRow :=
  { id := 3, code_root := "c", storage_root := "s", vault_root := "BAD",
    nonce := 0, committed := false }

/-- A database whose single account row has an undecodable vault root. -/
def dbBad : DB := { DB.empty with accounts := [badRow] }

/-- Witness for C3 on a one-row table with a corrupted vault root. -/
theorem C3_malformed_row_fails_read_witness :
    ∃ e, get_accounts strictCodec allValid dbBad =
      .err (.dataDeserializationError e) :=
  C3_malformed_row_fails_read strictCodec allValid dbBad (by decide) (by decide)

/-- C4: after an account with a given id is inserted, a second
`insert_account` whose account carries the same id (and whose fields
serialize, so the call reaches the write) fails with a query error —
the PRIMARY KEY uniqueness violation — and the table still contains
exactly one row with that id. -/
theorem C4_duplicate_id_query_error {α : Type} (c : Codec α) (db db1 : DB)
    (a a2 : Account α) (hins : insert_account c db a = .ok db1)
    (hid : a2.id = a.id) (hc2 : ∃ s, c.enc a2.codeRoot = .ok s)
    (hs2 : ∃ s, c.enc a2.storageRoot = .ok s)
    (hv2 : ∃ s, c.enc a2.vaultRoot = .ok s) (hn2 : a2.nonce ≤ i64MaxNat) :
    insert_account c db1 a2 =
      .error (.queryError "UNIQUE constraint failed: accounts.id") ∧
      db1.accounts.countP (fun r => decide (r.id = u64ToI64 a2.id)) = 1 := by
  obtain ⟨cr, sr, vr, hc, hs, hv, hn, hfresh, hdb1⟩ :=
    insert_account_ok_inv c db a db1 hins
  obtain ⟨cs2, hcs2⟩ := hc2
  obtain ⟨ss2, hss2⟩ := hs2
  obtain ⟨vs2, hvs2⟩ := hv2
  have hrowmem : ∃ r ∈ db1.accounts, r.id = u64ToI64 a2.id := by
    refine ⟨{ id := u64ToI64 a.id, code_root := cr, storage_root := sr,
              vault_root := vr, nonce := (a.nonce : Int),
              committed := a.isOnChain }, ?_, by rw [hid]⟩
    rw [hdb1]
    simp
  constructor
  · unfold insert_account
    simp [hcs2, hss2, hvs2, hn2, hrowmem]
  · rw [hdb1, hid]
    simp only [List.countP_append]
    have hz : db.accounts.countP (fun r => decide (r.id = u64ToI64 a.id)) = 0 := by
      rw [List.countP_eq_zero]
      intro r hr
      simp only [decide_eq_true_eq]
      intro hcontra
      exact hfresh ⟨r, hr, hcontra⟩
    rw [hz]
    simp

/-- Witness for C4: re-inserting `acct1` after it was inserted. -/
theorem C4_duplicate_id_query_error_witness :
    insert_account idCodec db1 acct1 =
      .error (.queryError "UNIQUE constraint failed: accounts.id") ∧
      db1.accounts.countP (fun r => decide (r.id = u64ToI64 acct1.id)) = 1 :=
  C4_duplicate_id_query_error idCodec DB.empty db1 acct1 acct1 (by rfl) rfl
    ⟨"c", rfl⟩ ⟨"s", rfl⟩ ⟨"v", rfl⟩ (by decide)

/-- Inversion of a successful `insert_account_code`: root and procedures
encoded, the root was fresh, and exactly one row — whose module column
is the empty string — was appended to `account_code`. -/
theorem insert_account_code_ok_inv {α π μ : Type} (c : Codec α)
    (encP : π → Except String String) (db : DB) (ac : AccountCode α π μ)
    (db1 : DB) (h : insert_account_code c encP db ac = .ok db1) :
    ∃ cr ps, c.enc ac.root = .ok cr ∧ encP ac.procedures = .ok ps ∧
      (¬ ∃ r ∈ db.account_code, r.root = cr) ∧
      db1 = { db with account_code := db.account_code ++
        [{ root := cr, procedures := ps, module := "" }] } := by
  unfold insert_account_code at h
  cases hc : c.enc ac.root with
  | error e => simp [hc] at h
  | ok cr =>
  cases hp : encP ac.procedures with
  | error e => simp [hc, hp] at h
  | ok ps =>
  simp only [hc, hp] at h
  split at h
  · exact absurd h (by simp)
  · cases h
    exact ⟨cr, ps, rfl, rfl, by assumption, rfl⟩

/-- Inversion of a successful `insert_account_storage`. -/
theorem insert_account_storage_ok_inv {α π : Type} (c : Codec α)
    (encP : π → Except String String) (db : DB) (st : AccountStorage α π)
    (db1 : DB) (h : insert_account_storage c encP db st = .ok db1) :
    ∃ sr sl, c.enc st.root = .ok sr ∧ encP st.slots = .ok sl ∧
      (¬ ∃ r ∈ db.account_storage, r.root = sr) ∧
      db1 = { db with account_storage := db.account_storage ++
        [{ root := sr, slots := sl }] } := by
  unfold insert_account_storage at h
  cases hc : c.enc st.root with
  | error e => simp [hc] at h
  | ok sr =>
  cases hp : encP st.slots with
  | error e => simp [hc, hp] at h
  | ok sl =>
  simp only [hc, hp] at h
  split at h
  · exact absurd h (by simp)
  · cases h
    exact ⟨sr, sl, rfl, rfl, by assumption, rfl⟩

/-- Inversion of a successful `insert_account_vault`. -/
theorem insert_account_vault_ok_inv {α π : Type} (c : Codec α)
    (encP : π → Except String String) (db : DB) (av : AccountVault α π)
    (db1 : DB) (h : insert_account_vault c encP db av = .ok db1) :
    ∃ vr al, c.enc av.commitment = .ok vr ∧ encP av.assets = .ok al ∧
      (¬ ∃ r ∈ db.account_vault, r.root = vr) ∧
      db1 = { db with account_vault := db.account_vault ++
        [{ root := vr, assets := al }] } := by
  unfold insert_account_vault at h
  cases hc : c.enc av.commitment with
  | error e => simp [hc] at h
  | ok vr =>
  cases hp : encP av.assets with
  | error e => simp [hc, hp] at h
  | ok al =>
  simp only [hc, hp] at h
  split at h
  · exact absurd h (by simp)
  · cases h
    exact ⟨vr, al, rfl, rfl, by assumption, rfl⟩

/-- C10: `insert_account_code` stores the empty string in the module
column unconditionally — the result does not depend on the module's
content at all — and an input-serialization failure can only come from
the root or the procedures field, never from the module. -/
theorem C10_module_never_serialized {α π μ : Type} (c : Codec α)
    (encP : π → Except String String) (db : DB) (ac ac2 : AccountCode α π μ)
    (hroot : ac2.root = ac.root) (hproc : ac2.procedures = ac.procedures) :
    (∀ db1, insert_account_code c encP db ac = .ok db1 →
        ∃ row, db1.account_code = db.account_code ++ [row] ∧
          row.module = "") ∧
    insert_account_code c encP db ac2 = insert_account_code c encP db ac ∧
    (∀ e, insert_account_code c encP db ac =
        .error (.inputSerializationError e) →
      c.enc ac.root = .error e ∨ encP ac.procedures = .error e) := by
  refine ⟨?_, ?_, ?_⟩
  · intro db1 h
    obtain ⟨cr, ps, hc, hp, hfresh, hdb1⟩ :=
      insert_account_code_ok_inv c encP db ac db1 h
    exact ⟨_, by rw [hdb1], rfl⟩
  · unfold insert_account_code
    rw [hroot, hproc]
  · intro e h
    unfold insert_account_code at h
    cases hc : c.enc ac.root with
    | error e1 =>
      simp only [hc, Except.error.injEq, StoreError.inputSerializationError.injEq] at h
      exact Or.inl (by rw [h])
    | ok cr =>
      cases hp : encP ac.procedures with
      | error e1 =>
        simp only [hc, hp, Except.error.injEq,
          StoreError.inputSerializationError.injEq] at h
        exact Or.inr (by rw [h])
      | ok ps =>
        simp only [hc, hp] at h
        split at h <;> simp at h

/-- Two concrete account-code values differing only in their module. -/
def exCode : AccountCode String String Nat :=
  { root := "cr", procedures := "p", module := 0 }

/-- Same root and procedures as `exCode`, different module content. -/
def exCode2 : AccountCode String String Nat :=
  { root := "cr", procedures := "p", module := 1 }

/-- The account_code row that `insert_account_code` writes for `exCode`. -/
def codeRow1 : CodeRow := { root := "cr", procedures := "p", module := "" }

/-- The database state after inserting `exCode` into the empty database. -/
def dbCode : DB := { DB.empty with account_code := [codeRow1] }

/-- Witness for C10: the stored module column is empty and the insert
result ignores the module content. -/
theorem C10_module_never_serialized_witness :
    (∃ row, dbCode.account_code = DB.empty.account_code ++ [row] ∧
      row.module = "") ∧
    insert_account_code idCodec Except.ok DB.empty exCode2 =
      insert_account_code idCodec Except.ok DB.empty exCode :=
  ⟨(C10_module_never_serialized idCodec Except.ok DB.empty exCode exCode2
      rfl rfl).1 dbCode (by rfl),
   (C10_module_never_serialized idCodec Except.ok DB.empty exCode exCode2
      rfl rfl).2.1⟩

/-- `insert_account` fails with an `InputSerializationError` exactly when
one of the three root encodings fails. -/
theorem insert_account_ser_iff {α : Type} (c : Codec α) (db : DB)
    (a : Account α) :
    (∃ e, insert_account c db a = .error (.inputSerializationError e)) ↔
      ((c.enc a.codeRoot).isOk = false ∨ (c.enc a.storageRoot).isOk = false ∨
        (c.enc a.vaultRoot).isOk = false) := by
  unfold insert_account
  cases hc : c.enc a.codeRoot with
  | error e => simp [Except.isOk, Except.toBool]
  | ok cr =>
  cases hs : c.enc a.storageRoot with
  | error e => simp [Except.isOk, Except.toBool]
  | ok sr =>
  cases hv : c.enc a.vaultRoot with
  | error e => simp [Except.isOk, Except.toBool]
  | ok vr =>
  by_cases hn : a.nonce ≤ i64MaxNat
  · by_cases hdup : ∃ r ∈ db.accounts, r.id = u64ToI64 a.id
    · simp [Except.isOk, Except.toBool, hn, hdup]
    · simp [Except.isOk, Except.toBool, hn, hdup]
  · simp [Except.isOk, Except.toBool, hn]

/-- Every `insert_account` call ends in success, an
`InputSerializationError` or a `QueryError` — nothing else. -/
theorem insert_account_outcomes {α : Type} (c : Codec α) (db : DB)
    (a : Account α) :
    (∃ db1, insert_account c db a = .ok db1) ∨
      (∃ e, insert_account c db a = .error (.inputSerializationError e)) ∨
      (∃ m, insert_account c db a = .error (.queryError m)) := by
  unfold insert_account
  cases hc : c.enc a.codeRoot with
  | error e => simp
  | ok cr =>
  cases hs : c.enc a.storageRoot with
  | error e => simp
  | ok sr =>
  cases hv : c.enc a.vaultRoot with
  | error e => simp
  | ok vr =>
  by_cases hn : a.nonce ≤ i64MaxNat
  · by_cases hdup : ∃ r ∈ db.accounts, r.id = u64ToI64 a.id
    · simp [hn, hdup]
    · simp [hn, hdup]
  · simp [hn]

/-- `insert_account_code` fails with an `InputSerializationError` exactly
when encoding the root or the procedures fails. -/
theorem insert_account_code_ser_iff {α π μ : Type} (c : Codec α)
    (encP : π → Except String String) (db : DB) (ac : AccountCode α π μ) :
    (∃ e, insert_account_code c encP db ac =
        .error (.inputSerializationError e)) ↔
      ((c.enc ac.root).isOk = false ∨ (encP ac.procedures).isOk = false) := by
  unfold insert_account_code
  cases hc : c.enc ac.root with
  | error e => simp [Except.isOk, Except.toBool]
  | ok cr =>
  cases hp : encP ac.procedures with
  | error e => simp [Except.isOk, Except.toBool]
  | ok ps =>
  by_cases hdup : ∃ r ∈ db.account_code, r.root = cr
  · simp [Except.isOk, Except.toBool, hdup]
  · simp [Except.isOk, Except.toBool, hdup]

/-- Every `insert_account_code` call ends in success, an
`InputSerializationError` or a `QueryError`. -/
theorem insert_account_code_outcomes {α π μ : Type} (c : Codec α)
    (encP : π → Except String String) (db : DB) (ac : AccountCode α π μ) :
    (∃ db1, insert_account_code c encP db ac = .ok db1) ∨
      (∃ e, insert_account_code c encP db ac =
        .error (.inputSerializationError e)) ∨
      (∃ m, insert_account_code c encP db ac = .error (.queryError m)) := by
  unfold insert_account_code
  cases hc : c.enc ac.root with
  | error e => simp
  | ok cr =>
  cases hp : encP ac.procedures with
  | error e => simp
  | ok ps =>
  by_cases hdup : ∃ r ∈ db.account_code, r.root = cr
  · simp [hdup]
  · simp [hdup]

/-- `insert_account_storage` fails with an `InputSerializationError`
exactly when encoding the root or the slot map fails. -/
theorem insert_account_storage_ser_iff {α π : Type} (c : Codec α)
    (encP : π → Except String String) (db : DB) (st : AccountStorage α π) :
    (∃ e, insert_account_storage c encP db st =
        .error (.inputSerializationError e)) ↔
      ((c.enc st.root).isOk = false ∨ (encP st.slots).isOk = false) := by
  unfold insert_account_storage
  cases hc : c.enc st.root with
  | error e => simp [Except.isOk, Except.toBool]
  | ok sr =>
  cases hp : encP st.slots with
  | error e => simp [Except.isOk, Except.toBool]
  | ok sl =>
  by_cases hdup : ∃ r ∈ db.account_storage, r.root = sr
  · simp [Except.isOk, Except.toBool, hdup]
  · simp [Except.isOk, Except.toBool, hdup]

/-- Every `insert_account_storage` call ends in success, an
`InputSerializationError` or a `QueryError`. -/
theorem insert_account_storage_outcomes {α π : Type} (c : Codec α)
    (encP : π → Except String String) (db : DB) (st : AccountStorage α π) :
    (∃ db1, insert_account_storage c encP db st = .ok db1) ∨
      (∃ e, insert_account_storage c encP db st =
        .error (.inputSerializationError e)) ∨
      (∃ m, insert_account_storage c encP db st = .error (.queryError m)) := by
  unfold insert_account_storage
  cases hc : c.enc st.root with
  | error e => simp
  | ok sr =>
  cases hp : encP st.slots with
  | error e => simp
  | ok sl =>
  by_cases hdup : ∃ r ∈ db.account_storage, r.root = sr
  · simp [hdup]
  · simp [hdup]

/-- `insert_account_vault` fails with an `InputSerializationError`
exactly when encoding the commitment or the asset list fails. -/
theorem insert_account_vault_ser_iff {α π : Type} (c : Codec α)
    (encP : π → Except String String) (db : DB) (av : AccountVault α π) :
    (∃ e, insert_account_vault c encP db av =
        .error (.inputSerializationError e)) ↔
      ((c.enc av.commitment).isOk = false ∨ (encP av.assets).isOk = false) := by
  unfold insert_account_vault
  cases hc : c.enc av.commitment with
  | error e => simp [Except.isOk, Except.toBool]
  | ok vr =>
  cases hp : encP av.assets with
  | error e => simp [Except.isOk, Except.toBool]
  | ok al =>
  by_cases hdup : ∃ r ∈ db.account_vault, r.root = vr
  · simp [Except.isOk, Except.toBool, hdup]
  · simp [Except.isOk, Except.toBool, hdup]

/-- Every `insert_account_vault` call ends in success, an
`InputSerializationError` or a `QueryError`. -/
theorem insert_account_vault_outcomes {α π : Type} (c : Codec α)
    (encP : π → Except String String) (db : DB) (av : AccountVault α π) :
    (∃ db1, insert_account_vault c encP db av = .ok db1) ∨
      (∃ e, insert_account_vault c encP db av =
        .error (.inputSerializationError e)) ∨
      (∃ m, insert_account_vault c encP db av = .error (.queryError m)) := by
  unfold insert_account_vault
  cases hc : c.enc av.commitment with
  | error e => simp
  | ok vr =>
  cases hp : encP av.assets with
  | error e => simp
  | ok al =>
  by_cases hdup : ∃ r ∈ db.account_vault, r.root = vr
  · simp [hdup]
  · simp [hdup]

/-- C7: each of the four insert operations, when it succeeds, appends
exactly one row to its own table and leaves the other three tables (and
all existing rows) unchanged; it fails with an input-serialization error
exactly when encoding the entity's serialized fields fails; and every
call ends in success, an input-serialization error or a query error (the
query error being the failing underlying write: a constraint violation
or a parameter-binding failure). -/
theorem C7_insert_frame_and_error_kinds {α π μ : Type} (c : Codec α)
    (encP : π → Except String String) (db : DB) (a : Account α)
    (ac : AccountCode α π μ) (st : AccountStorage α π)
    (av : AccountVault α π) :
    (∀ db1, insert_account c db a = .ok db1 →
        (∃ row, db1.accounts = db.accounts ++ [row]) ∧
        db1.account_code = db.account_code ∧
        db1.account_storage = db.account_storage ∧
        db1.account_vault = db.account_vault) ∧
    ((∃ e, insert_account c db a = .error (.inputSerializationError e)) ↔
      ((c.enc a.codeRoot).isOk = false ∨ (c.enc a.storageRoot).isOk = false ∨
        (c.enc a.vaultRoot).isOk = false)) ∧
    ((∃ db1, insert_account c db a = .ok db1) ∨
      (∃ e, insert_account c db a = .error (.inputSerializationError e)) ∨
      (∃ m, insert_account c db a = .error (.queryError m))) ∧
    (∀ db1, insert_account_code c encP db ac = .ok db1 →
        (∃ row, db1.account_code = db.account_code ++ [row]) ∧
        db1.accounts = db.accounts ∧
        db1.account_storage = db.account_storage ∧
        db1.account_vault = db.account_vault) ∧
    ((∃ e, insert_account_code c encP db ac =
        .error (.inputSerializationError e)) ↔
      ((c.enc ac.root).isOk = false ∨ (encP ac.procedures).isOk = false)) ∧
    ((∃ db1, insert_account_code c encP db ac = .ok db1) ∨
      (∃ e, insert_account_code c encP db ac =
        .error (.inputSerializationError e)) ∨
      (∃ m, insert_account_code c encP db ac = .error (.queryError m))) ∧
    (∀ db1, insert_account_storage c encP db st = .ok db1 →
        (∃ row, db1.account_storage = db.account_storage ++ [row]) ∧
        db1.accounts = db.accounts ∧
        db1.account_code = db.account_code ∧
        db1.account_vault = db.account_vault) ∧
    ((∃ e, insert_account_storage c encP db st =
        .error (.inputSerializationError e)) ↔
      ((c.enc st.root).isOk = false ∨ (encP st.slots).isOk = false)) ∧
    ((∃ db1, insert_account_storage c encP db st = .ok db1) ∨
      (∃ e, insert_account_storage c encP db st =
        .error (.inputSerializationError e)) ∨
      (∃ m, insert_account_storage c encP db st = .error (.queryError m))) ∧
    (∀ db1, insert_account_vault c encP db av = .ok db1 →
        (∃ row, db1.account_vault = db.account_vault ++ [row]) ∧
        db1.accounts = db.accounts ∧
        db1.account_code = db.account_code ∧
        db1.account_storage = db.account_storage) ∧
    ((∃ e, insert_account_vault c encP db av =
        .error (.inputSerializationError e)) ↔
      ((c.enc av.commitment).isOk = false ∨ (encP av.assets).isOk = false)) ∧
    ((∃ db1, insert_account_vault c encP db av = .ok db1) ∨
      (∃ e, insert_account_vault c encP db av =
        .error (.inputSerializationError e)) ∨
      (∃ m, insert_account_vault c encP db av = .error (.queryError m))) := by
  refine ⟨?_, insert_account_ser_iff c db a, insert_account_outcomes c db a,
    ?_, insert_account_code_ser_iff c encP db ac,
    insert_account_code_outcomes c encP db ac,
    ?_, insert_account_storage_ser_iff c encP db st,
    insert_account_storage_outcomes c encP db st,
    ?_, insert_account_vault_ser_iff c encP db av,
    insert_account_vault_outcomes c encP db av⟩
  · intro db1 h
    obtain ⟨cr, sr, vr, hc, hs, hv, hn, hfresh, hdb1⟩ :=
      insert_account_ok_inv c db a db1 h
    exact ⟨⟨_, by rw [hdb1]⟩, by rw [hdb1], by rw [hdb1], by rw [hdb1]⟩
  · intro db1 h
    obtain ⟨cr, ps, hc, hp, hfresh, hdb1⟩ :=
      insert_account_code_ok_inv c encP db ac db1 h
    exact ⟨⟨_, by rw [hdb1]⟩, by rw [hdb1], by rw [hdb1], by rw [hdb1]⟩
  · intro db1 h
    obtain ⟨sr, sl, hc, hp, hfresh, hdb1⟩ :=
      insert_account_storage_ok_inv c encP db st db1 h
    exact ⟨⟨_, by rw [hdb1]⟩, by rw [hdb1], by rw [hdb1], by rw [hdb1]⟩
  · intro db1 h
    obtain ⟨vr, al, hc, hp, hfresh, hdb1⟩ :=
      insert_account_vault_ok_inv c encP db av db1 h
    exact ⟨⟨_, by rw [hdb1]⟩, by rw [hdb1], by rw [hdb1], by rw [hdb1]⟩

/-- A concrete storage value for the C7 witness. -/
def exStorage : AccountStorage String String := { root := "sr", slots := "sl" }

/-- A concrete vault value for the C7 witness. -/
def exVault : AccountVault String String := { commitment := "vr", assets := "al" }

/-- Witness for C7: the frame of a concrete successful `insert_account`
call on the empty database. -/
theorem C7_insert_frame_and_error_kinds_witness :
    (∃ row, db1.accounts = DB.empty.accounts ++ [row]) ∧
      db1.account_code = DB.empty.account_code ∧
      db1.account_storage = DB.empty.account_storage ∧
      db1.account_vault = DB.empty.account_vault :=
  (C7_insert_frame_and_error_kinds idCodec Except.ok DB.empty acct1 exCode
    exStorage exVault).1 db1 (by rfl)

/-- After a successful `update_to_latest` the log has grown by exactly
the pending indices, in order, and the tracked version is at least the
number of migrations (it is the maximum of the old version and that
number). -/
theorem update_to_latest_ok_spec {σ : Type}
    (steps : List (σ → Except String σ)) (db db1 : MigDB σ)
    (h : update_to_latest steps db = .ok db1) :
    db1.log = db.log ++
      List.range' db.version (steps.length - db.version) ∧
      db1.version = max db.version steps.length := by
  unfold update_to_latest at h
  cases ha : applyPending (steps.drop db.version) db.version db with
  | error e => rw [ha] at h; exact absurd h (by simp)
  | ok db2 =>
    rw [ha] at h
    cases h
    obtain ⟨hlog, hver⟩ := applyPending_ok_spec (steps.drop db.version)
      db.version db db1 ha
    rw [List.length_drop] at hlog hver
    refine ⟨hlog, ?_⟩
    rw [hver]
    split <;> omega

/-- C9: running the migration runner is idempotent — a second run right
after a successful one returns the same state unchanged; it is a no-op
on an already-current database; on a brand-new file (version 0, empty
log) it applies the full ordered sequence from scratch; and it never
applies a migration twice (the applied log stays duplicate-free). -/
theorem C9_update_to_latest_idempotent {σ : Type}
    (steps : List (σ → Except String σ)) (db db1 : MigDB σ) :
    (update_to_latest steps db = .ok db1 →
        update_to_latest steps db1 = .ok db1) ∧
    (db.version = steps.length → update_to_latest steps db = .ok db) ∧
    (db.version = 0 → db.log = [] → update_to_latest steps db = .ok db1 →
        db1.log = List.range steps.length) ∧
    (db.log = List.range db.version → update_to_latest steps db = .ok db1 →
        db1.log.Nodup) := by
  refine ⟨?_, ?_, ?_, ?_⟩
  · intro h
    obtain ⟨hlog, hver⟩ := update_to_latest_ok_spec steps db db1 h
    unfold update_to_latest
    rw [List.drop_eq_nil_of_le (by omega)]
    rfl
  · intro hv
    have hdrop : steps.drop db.version = [] := by
      rw [hv]
      exact List.drop_length steps
    unfold update_to_latest
    rw [hdrop]
    rfl
  · intro hv hl h
    obtain ⟨hlog, hver⟩ := update_to_latest_ok_spec steps db db1 h
    rw [hlog, hl, hv, List.nil_append, Nat.sub_zero, List.range_eq_range']
  · intro hl h
    obtain ⟨hlog, hver⟩ := update_to_latest_ok_spec steps db db1 h
    rw [hlog, hl, List.range_eq_range']
    have hfuse := List.range'_append 0 db.version
      (steps.length - db.version) 1
    simp only [Nat.one_mul, Nat.zero_add] at hfuse
    rw [hfuse, ← List.range_eq_range']
    exact List.nodup_range _

/-- C8: `Store::new` surfaces a failed `Connection::open` as a
`ConnectionError`; a migration failure propagates and no handle is
produced; and a handle is only ever returned when the open succeeded and
the migration run succeeded, in which case the handle is fully migrated
(its version has reached the number of migrations). -/
theorem C8_store_new {σ : Type} (steps : List (σ → Except String σ))
    (openResult : Except String (MigDB σ)) :
    (∀ e, openResult = .error e →
        Store.new steps openResult = .error (.connectionError e)) ∧
    (∀ d e, openResult = .ok d → update_to_latest steps d = .error e →
        Store.new steps openResult = .error e) ∧
    (∀ d1, Store.new steps openResult = .ok d1 →
        ∃ d, openResult = .ok d ∧ update_to_latest steps d = .ok d1 ∧
          steps.length ≤ d1.version) := by
  refine ⟨?_, ?_, ?_⟩
  · intro e h
    unfold Store.new
    rw [h]
  · intro d e h1 h2
    unfold Store.new
    rw [h1]
    simp [h2]
  · intro d1 h
    unfold Store.new at h
    cases ho : openResult with
    | error e => rw [ho] at h; exact absurd h (by simp)
    | ok d =>
      rw [ho] at h
      cases hu : update_to_latest steps d with
      | error e => simp [hu] at h
      | ok d2 =>
        simp only [hu] at h
        cases h
        obtain ⟨hlog, hver⟩ := update_to_latest_ok_spec steps d d1 hu
        exact ⟨d, rfl, hu, by omega⟩

/-- A concrete two-step migration sequence over a Nat-valued schema. -/
def exSteps : List (Nat → Except String Nat) :=
  [fun n => .ok (n + 1), fun n => .ok (n * 2)]

/-- A brand-new schema state: nothing applied yet. -/
def mig0 : MigDB Nat := { schema := 0, version := 0, log := [] }

/-- The schema state after running both steps of `exSteps` on `mig0`. -/
def migFinal : MigDB Nat := { schema := 2, version := 2, log := [0, 1] }

/-- Witness for C8: a fresh file is opened and fully migrated. -/
theorem C8_store_new_witness :
    ∃ d, (Except.ok mig0 : Except String (MigDB Nat)) = .ok d ∧
      update_to_latest exSteps d = .ok migFinal ∧
      exSteps.length ≤ migFinal.version :=
  (C8_store_new exSteps (.ok mig0)).2.2 migFinal (by rfl)

/-- Witness for C9: rerunning the runner after a full run is a no-op. -/
theorem C9_update_to_latest_idempotent_witness :
    update_to_latest exSteps migFinal = .ok migFinal :=
  (C9_update_to_latest_idempotent exSteps mig0 migFinal).1 (by rfl)

end Miden
